import Mathlib

/-!
Verification of the kamus-negeri-mobile client-side data-access layer:
a shallow embedding of the ApiClient request gateway and of the
KamusRepositoryImpl / NegeriRepositoryImpl repositories, with theorems
settling the specification claims about caching, invalidation, fallback
and search.

Times are modelled as integers (milliseconds), caches as association
lists keyed by strings, and network outcomes as an explicit result type,
so that every definition is executable.
-/

namespace KamusNegeri

/-! ## Association-list helpers (modelling the JS Map) -/

def alistLookup {A : Type} (l : List (String × A)) (k : String) : Option A :=
  (l.find? (fun p => p.1 == k)).map (fun p => p.2)

def alistRemove {A : Type} (l : List (String × A)) (k : String) : List (String × A) :=
  l.filter (fun p => !(p.1 == k))

def alistInsert {A : Type} (l : List (String × A)) (k : String) (v : A) : List (String × A) :=
  (k, v) :: alistRemove l k

/-! ## JS string primitives used by the source -/

def isPrefixL : List Char → List Char → Bool
  | [], _ => true
  | _ :: _, [] => false
  | p :: ps, c :: cs => p == c && isPrefixL ps cs

def containsSubL : List Char → List Char → Bool
  | _, [] => true
  | [], _ :: _ => false
  | c :: rest, p :: ps => isPrefixL (p :: ps) (c :: rest) || containsSubL rest (p :: ps)

/-- JS String.prototype.includes: substring containment (true for the empty
pattern). -/
def jsIncludes (s pat : String) : Bool := containsSubL s.toList pat.toList

/-- The first component of JS url.split(sep) for a one-character separator:
the prefix of the string before the first occurrence of the separator (the
whole string when the separator does not occur). -/
def jsSplitHead (s : String) (sep : Char) : String :=
  String.mk (s.toList.takeWhile (fun c => !(c == sep)))

/-- JS String.prototype.split on a character class given by a predicate:
the maximal runs of characters not satisfying the predicate, with empty
components for adjacent separators, as a list of char lists. -/
def splitChars (p : Char → Bool) : List Char → List Char → List (List Char)
  | [], acc => [acc.reverse]
  | c :: cs, acc =>
    if p c then acc.reverse :: splitChars p cs []
    else splitChars p cs (c :: acc)

def isJsSpace (c : Char) : Bool := c == ' ' || c == '\t' || c == '\n' || c == '\r'

/-- JS String.prototype.trim. -/
def jsTrim (s : String) : String :=
  String.mk (((s.toList.dropWhile isJsSpace).reverse.dropWhile isJsSpace).reverse)

/-- JS String.prototype.toLowerCase (over the ASCII range used here). -/
def jsToLower (s : String) : String :=
  String.mk (s.toList.map Char.toLower)

/-! ## Request Gateway (ApiClient) -/

/-- A cached HTTP response in the gateway (the CacheEntry interface of
ApiClient): response body, creation time and absolute expiry time. -/
structure GwCacheEntry (A : Type) where
  data : A
  timestamp : Int
  expiresAt : Int
  deriving Repr, DecidableEq

/-- The gateway response cache, modelling the requestCache Map. -/
abbrev GwCache (A : Type) : Type := List (String × GwCacheEntry A)

/-- Outcome of an axios network call: a response body or a failure. -/
inductive NetResult (A : Type) where
  | ok (data : A)
  | fail
  deriving Repr, DecidableEq

def defaultCacheExpiration : Int := 5 * 60 * 1000

/-- ApiClient.getValidCacheData: return the cached data when the entry has
not expired; an expired entry is removed from the cache. Yields the data
found (if any) together with the updated cache. -/
def getValidCacheData {A : Type} (cache : GwCache A) (now : Int) (cacheKey : String) :
    Option A × GwCache A :=
  match alistLookup cache cacheKey with
  | some e =>
    if now < e.expiresAt then (some e.data, cache)
    else (none, alistRemove cache cacheKey)
  | none => (none, cache)

/-- ApiClient.setCacheData: store data under the key with expiry now plus
the explicit expiration or the default window. -/
def setCacheData {A : Type} (cache : GwCache A) (now : Int) (cacheKey : String)
    (data : A) (expirationMs : Option Int) : GwCache A :=
  alistInsert cache cacheKey
    { data := data, timestamp := now, expiresAt := now + expirationMs.getD defaultCacheExpiration }

/-- The cache key of ApiClient.get: url plus the serialized query params. -/
def cacheKeyOf (url : String) (params : Option String) : String :=
  url ++ params.getD ""

/-- The cache pre-check of ApiClient.get: skipped entirely when skipCache is
set, otherwise getValidCacheData. -/
def preCheck {A : Type} (cache : GwCache A) (now : Int) (key : String) (skipCache : Bool) :
    Option A × GwCache A :=
  if skipCache then (none, cache) else getValidCacheData cache now key

/-- ApiClient.get: cache pre-check (unless skipCache), network call, cache
write on success (unless skipCache), and stale-cache fallback on failure. -/
def apiGet {A : Type} (cache : GwCache A) (now : Int) (url : String) (params : Option String)
    (skipCache : Bool) (expirationMs : Option Int) (net : NetResult A) :
    NetResult A × GwCache A :=
  let key := cacheKeyOf url params
  let pre := preCheck cache now key skipCache
  match pre.1 with
  | some d => (NetResult.ok d, pre.2)
  | none =>
    match net with
    | NetResult.ok d =>
      (NetResult.ok d, if skipCache then pre.2 else setCacheData pre.2 now key d expirationMs)
    | NetResult.fail =>
      match alistLookup pre.2 key with
      | some e => (NetResult.ok e.data, pre.2)
      | none => (NetResult.fail, pre.2)

/-- ApiClient.invalidateRelatedCache: resourcePath is the first component of
url.split('/'); every cache key containing it as a substring is deleted. -/
def invalidateRelatedCache {A : Type} (url : String) (cache : GwCache A) : GwCache A :=
  let resourcePath := jsSplitHead url '/'
  cache.filter (fun p => !(jsIncludes p.1 resourcePath))

/-- The shared mutation path of ApiClient.post, put and delete: on success
invalidate related cache entries, on failure leave the cache untouched. -/
def apiMutate {A B : Type} (url : String) (cache : GwCache A) (net : NetResult B) :
    NetResult B × GwCache A :=
  match net with
  | NetResult.ok d => (NetResult.ok d, invalidateRelatedCache url cache)
  | NetResult.fail => (NetResult.fail, cache)

def apiPost {A B : Type} (url : String) (cache : GwCache A) (net : NetResult B) :
    NetResult B × GwCache A := apiMutate url cache net

def apiPut {A B : Type} (url : String) (cache : GwCache A) (net : NetResult B) :
    NetResult B × GwCache A := apiMutate url cache net

def apiDelete {A B : Type} (url : String) (cache : GwCache A) (net : NetResult B) :
    NetResult B × GwCache A := apiMutate url cache net

/-! ## Domain entities -/

/-- Kamus entity (domain/entities/Kamus.ts). -/
structure Kamus where
  id : String
  word : String
  meaning : String
  «example» : Option String := none
  negeriId : String
  negeriName : Option String := none
  notes : Option String := none
  tags : Option (List String) := none
  deriving Repr, DecidableEq

/-- Negeri entity (domain/entities/Negeri.ts). -/
structure Negeri where
  id : String
  name : String
  description : Option String := none
  capital : Option String := none
  flag : Option String := none
  emblem : Option String := none
  deriving Repr, DecidableEq

/-! ## Repository cache entries and validity -/

/-- The repositories' CacheEntry interface: data plus creation timestamp. -/
structure RepoCacheEntry (A : Type) where
  data : A
  timestamp : Int
  deriving Repr, DecidableEq

/-- KamusRepositoryImpl.cacheExpirationTime (10 minutes). -/
def kamusCacheExpirationTime : Int := 10 * 60 * 1000

/-- NegeriRepositoryImpl.cacheExpirationTime (15 minutes). -/
def negeriCacheExpirationTime : Int := 15 * 60 * 1000

/-- The isCacheValid method shared verbatim by both repositories, with the
expiration window of the owning class: false for a missing entry, otherwise
(now - timestamp) < window. -/
def isCacheValid {A : Type} (window : Int) (cache : Option (RepoCacheEntry A)) (now : Int) :
    Bool :=
  match cache with
  | none => false
  | some c => now - c.timestamp < window

def kamusIsCacheValid {A : Type} (cache : Option (RepoCacheEntry A)) (now : Int) : Bool :=
  isCacheValid kamusCacheExpirationTime cache now

def negeriIsCacheValid {A : Type} (cache : Option (RepoCacheEntry A)) (now : Int) : Bool :=
  isCacheValid negeriCacheExpirationTime cache now

/-! ## Raw API payloads and the entry mapping -/

/-- A dynamically typed field of a raw backend record: a string, a number,
or absent. -/
inductive JVal where
  | jstr (s : String)
  | jnum (n : Nat)
  | jnull
  deriving Repr, DecidableEq

/-- JS truthiness of such a field. -/
def JVal.truthy : JVal → Bool
  | .jstr s => !(s == "")
  | .jnum n => !(n == 0)
  | .jnull => false

/-- JS String() conversion of such a field. -/
def JVal.toStr : JVal → String
  | .jstr s => s
  | .jnum n => Nat.repr n
  | .jnull => "null"

/-- The nested negeri object of a raw /kamus record. -/
structure NegeriRef where
  id : JVal
  name : String
  deriving Repr, DecidableEq

/-- Raw /kamus record (the KamusApiResponse interface): backend field names,
with id and negeri_id possibly non-strings or absent. -/
structure KamusApiResponse where
  id : JVal
  dialek : Option String := none
  maksud : Option String := none
  contoh_ayat : Option String := none
  negeri_id : JVal
  negeri : Option NegeriRef := none
  deriving Repr, DecidableEq

/-- JS s || fallback for an optional string field. -/
def strOr (s : Option String) (fallback : String) : String :=
  match s with
  | some v => if v == "" then fallback else v
  | none => fallback

/-- KamusRepositoryImpl.mapApiResponseToKamus with its fallbacks; now is the
Date.now() used for the unknown-id placeholder. -/
def mapApiResponseToKamus (now : Int) (r : KamusApiResponse) : Kamus :=
  { id := if r.id.truthy then r.id.toStr else "unknown-" ++ now.repr
  , word := strOr r.dialek "Unknown Word"
  , meaning := strOr r.maksud "No meaning provided"
  , «example» := r.contoh_ayat
  , negeriId := if r.negeri_id.truthy then r.negeri_id.toStr else "0"
  , negeriName := some (strOr (r.negeri.map (fun n => n.name)) "Unknown Region") }

/-- A raw list item as handed to the mapping step of getAllKamus: either a
record that maps normally, or one whose mapping throws, modelling the
per-item try/catch. -/
inductive RawKamusItem where
  | record (r : KamusApiResponse)
  | throwing
  deriving Repr, DecidableEq

/-- One step of the mapping loop in getAllKamus: a throwing item is replaced
by the clearly tagged error placeholder whose id carries a random suffix. -/
def mapKamusItem (now : Int) (suffix : String) : RawKamusItem → Kamus
  | .record r => mapApiResponseToKamus now r
  | .throwing =>
    { id := "error-" ++ suffix
    , word := "Error loading item"
    , meaning := "There was an error processing this item"
    , negeriId := "0"
    , negeriName := some "Unknown" }

/-- The mapping step of getAllKamus over the whole fetched list; rnd gives
the random suffix drawn for the placeholder at each position. -/
def mapKamusItems (now : Int) (rnd : Nat → String) (items : List RawKamusItem) : List Kamus :=
  items.enum.map (fun p => mapKamusItem now (rnd p.1) p.2)

/-- The payload of a successful /kamus list fetch: the backend may deliver
an array, or a lone object which the code wraps into a one-element array. -/
inductive KamusFetchPayload where
  | arr (items : List RawKamusItem)
  | single (item : RawKamusItem)
  deriving Repr, DecidableEq

def KamusFetchPayload.toItems : KamusFetchPayload → List RawKamusItem
  | .arr l => l
  | .single i => [i]

/-! ## Entry repository: search index and tokenization -/

/-- JS word character (the \w class): ASCII alphanumeric or underscore. -/
def isWordChar (c : Char) : Bool := c.isAlphanum || c == '_'

/-- KamusRepositoryImpl.tokenizeText: lower-case, split on non-word
characters, drop tokens of length at most 1, trim, drop empties. -/
def tokenizeText (text : String) : List String :=
  if text == "" then []
  else
    (((splitChars (fun c => !(isWordChar c)) (jsToLower text).toList []).map String.mk).filter
        (fun t => 1 < t.length)
      |>.map jsTrim).filter (fun t => !(t == ""))

/-- The search index: normalized token to the ids of the entries carrying
it (the Map of Sets of KamusRepositoryImpl.searchIndex, as an association
list of id lists; only membership in an id list is ever consulted). -/
abbrev SearchIndex : Type := List (String × List String)

def indexLookup (idx : SearchIndex) (tok : String) : Option (List String) :=
  alistLookup idx tok

/-- Adding one id under one token, with the idempotence of Set.add. -/
def indexAdd (idx : SearchIndex) (tok : String) (id : String) : SearchIndex :=
  match alistLookup idx tok with
  | some s => alistInsert idx tok (if s.contains id then s else s ++ [id])
  | none => alistInsert idx tok [id]

/-- The combined (deduplicated) tokens of an entry's word and meaning. -/
def entryTokens (k : Kamus) : List String :=
  (tokenizeText k.word ++ tokenizeText k.meaning).dedup

/-- KamusRepositoryImpl.buildSearchIndex: a fresh index in which every token
of every entry maps to the ids of the entries carrying it. -/
def buildSearchIndex (entries : List Kamus) : SearchIndex :=
  entries.foldl (fun idx k => (entryTokens k).foldl (fun i t => indexAdd i t k.id) idx) []

/-- The direct case-insensitive substring scan of searchKamus over word and
meaning (the short-query path, also used as fallback). -/
def substringScan (entries : List Kamus) (lowercaseKeyword : String) : List Kamus :=
  entries.filter (fun k =>
    jsIncludes (jsToLower k.word) lowercaseKeyword
      || jsIncludes (jsToLower k.meaning) lowercaseKeyword)

/-- The token-intersection loop of searchKamus: fold over the search tokens,
seeding from the first token found in the index and intersecting with each
further token found there; tokens absent from the index leave the
accumulator unchanged. -/
def interFold (idx : SearchIndex) (toks : List String) (acc : Option (List String)) :
    Option (List String) :=
  toks.foldl
    (fun a tok =>
      match indexLookup idx tok with
      | some tokenMatches =>
        match a with
        | none => some tokenMatches
        | some m => some (m.filter (fun i => tokenMatches.contains i))
      | none => a)
    acc

/-- The synchronous core of KamusRepositoryImpl.searchKamus, given the
loaded full entry list and the repository's current search index (rebuilt
from the list when found empty). -/
def searchKamus (entries : List Kamus) (idx : SearchIndex) (keyword : String) : List Kamus :=
  let trimmedKeyword := jsTrim keyword
  if trimmedKeyword == "" then []
  else
    let idx1 := if idx.isEmpty then buildSearchIndex entries else idx
    if trimmedKeyword.length ≤ 2 then substringScan entries (jsToLower trimmedKeyword)
    else
      let searchTokens := tokenizeText trimmedKeyword
      if searchTokens.isEmpty then []
      else
        match interFold idx1 searchTokens none with
        | none => substringScan entries (jsToLower trimmedKeyword)
        | some m =>
          if m.isEmpty then substringScan entries (jsToLower trimmedKeyword)
          else entries.filter (fun k => m.contains k.id)

/-- Spec-side membership test for the search claim: every token of the
keyword matches the id in the index. -/
def tokenHas (idx : SearchIndex) (tok id : String) : Bool :=
  match indexLookup idx tok with
  | some s => s.contains id
  | none => false

def allTokensMatch (idx : SearchIndex) (toks : List String) (id : String) : Bool :=
  toks.all (fun t => tokenHas idx t id)

/-! ## Entry repository state and getAllKamus -/

structure KamusRepoState where
  kamusCache : Option (RepoCacheEntry (List Kamus)) := none
  kamusByNegeriCache : List (String × RepoCacheEntry (List Kamus)) := []
  searchIndex : SearchIndex := []
  deriving Repr, DecidableEq

/-- KamusRepositoryImpl.getAllKamus: valid-cache hit, else fetch, coerce to
an array, map with per-item error isolation, replace the cache and rebuild
the index; on fetch failure return the stale cache if any, else fail. -/
def getAllKamus (st : KamusRepoState) (now : Int) (rnd : Nat → String)
    (fetch : NetResult KamusFetchPayload) : NetResult (List Kamus) × KamusRepoState :=
  let onMiss :=
    match fetch with
    | NetResult.ok payload =>
      let kamusList := mapKamusItems now rnd payload.toItems
      (NetResult.ok kamusList,
        { st with kamusCache := some ⟨kamusList, now⟩,
                  searchIndex := buildSearchIndex kamusList })
    | NetResult.fail =>
      match st.kamusCache with
      | some c => (NetResult.ok c.data, st)
      | none => (NetResult.fail, st)
  match st.kamusCache with
  | some c =>
    if now - c.timestamp < kamusCacheExpirationTime then (NetResult.ok c.data, st)
    else onMiss
  | none => onMiss

/-! ## Region repository -/

structure NegeriRepoState where
  negeriCache : Option (RepoCacheEntry (List Negeri)) := none
  negeriByIdCache : List (String × RepoCacheEntry Negeri) := []
  deriving Repr, DecidableEq

/-- NegeriRepositoryImpl.getAllNegeri: valid-cache hit, else fetch, cache
the list and write through the per-id cache for every item; on fetch
failure return the stale list cache if any, else fail. -/
def getAllNegeri (st : NegeriRepoState) (now : Int) (fetch : NetResult (List Negeri)) :
    NetResult (List Negeri) × NegeriRepoState :=
  let onMiss :=
    match fetch with
    | NetResult.ok negeriList =>
      (NetResult.ok negeriList,
        { negeriCache := some ⟨negeriList, now⟩,
          negeriByIdCache :=
            negeriList.foldl (fun m n => alistInsert m n.id ⟨n, now⟩) st.negeriByIdCache })
    | NetResult.fail =>
      match st.negeriCache with
      | some c => (NetResult.ok c.data, st)
      | none => (NetResult.fail, st)
  match st.negeriCache with
  | some c =>
    if now - c.timestamp < negeriCacheExpirationTime then (NetResult.ok c.data, st)
    else onMiss
  | none => onMiss

/-- NegeriRepositoryImpl.getNegeriById, following the TS control flow:
valid per-id cache, valid full-list cache scan with backfill, direct point
fetch with backfill, fallback to getAllNegeri with a scan, and the outer
catch returning a stale per-id entry before propagating the failure. -/
def getNegeriById (st : NegeriRepoState) (now : Int) (id : String)
    (pointFetch : NetResult Negeri) (listFetch : NetResult (List Negeri)) :
    NetResult (Option Negeri) × NegeriRepoState :=
  let backfill := fun (st1 : NegeriRepoState) (n : Negeri) =>
    { st1 with negeriByIdCache := alistInsert st1.negeriByIdCache id ⟨n, now⟩ }
  let directStep :=
    match pointFetch with
    | NetResult.ok n => (NetResult.ok (some n), backfill st n)
    | NetResult.fail =>
      match getAllNegeri st now listFetch with
      | (NetResult.ok allNegeri, st1) =>
        match allNegeri.find? (fun x => x.id == id) with
        | some n => (NetResult.ok (some n), backfill st1 n)
        | none => (NetResult.ok none, st1)
      | (NetResult.fail, st1) =>
        match alistLookup st1.negeriByIdCache id with
        | some e => (NetResult.ok (some e.data), st1)
        | none => (NetResult.fail, st1)
  let mainCacheStep :=
    match st.negeriCache with
    | some c =>
      if now - c.timestamp < negeriCacheExpirationTime then
        match c.data.find? (fun x => x.id == id) with
        | some n => (NetResult.ok (some n), backfill st n)
        | none => directStep
      else directStep
    | none => directStep
  match alistLookup st.negeriByIdCache id with
  | some e =>
    if now - e.timestamp < negeriCacheExpirationTime then (NetResult.ok (some e.data), st)
    else mainCacheStep
  | none => mainCacheStep

/-! ## The lookup chain of the getById claim, stated from the spec text -/

/-- The claim's step (1): a valid per-id cache entry. -/
def specValidPerId (st : NegeriRepoState) (now : Int) (id : String) : Option Negeri :=
  match alistLookup st.negeriByIdCache id with
  | some e => if negeriIsCacheValid (some e) now then some e.data else none
  | none => none

/-- The claim's step (2): a valid full-list cache scanned for a match. -/
def specValidFullListHit (st : NegeriRepoState) (now : Int) (id : String) : Option Negeri :=
  match st.negeriCache with
  | some c =>
    if negeriIsCacheValid (some c) now then c.data.find? (fun x => x.id == id)
    else none
  | none => none

/-- Backfilling the per-id cache with a found region. -/
def specBackfill (st : NegeriRepoState) (now : Int) (id : String) (n : Negeri) :
    NegeriRepoState :=
  { st with negeriByIdCache := alistInsert st.negeriByIdCache id ⟨n, now⟩ }

/-- The lookup chain exactly as the claim words it: (1) valid per-id cache
entry; (2) valid full-list cache scan, backfilling on a hit; (3) direct
point fetch, backfilling on success; (4) on point-fetch failure getAll
followed by a scan, null when absent; on total failure a stale per-id entry
is returned before the error propagates. -/
def specLookupChain (st : NegeriRepoState) (now : Int) (id : String)
    (pointFetch : NetResult Negeri) (listFetch : NetResult (List Negeri)) :
    NetResult (Option Negeri) × NegeriRepoState :=
  match specValidPerId st now id with
  | some n => (NetResult.ok (some n), st)
  | none =>
    match specValidFullListHit st now id with
    | some n => (NetResult.ok (some n), specBackfill st now id n)
    | none =>
      match pointFetch with
      | NetResult.ok n => (NetResult.ok (some n), specBackfill st now id n)
      | NetResult.fail =>
        match getAllNegeri st now listFetch with
        | (NetResult.ok allNegeri, st1) =>
          match allNegeri.find? (fun x => x.id == id) with
          | some n => (NetResult.ok (some n), specBackfill st1 now id n)
          | none => (NetResult.ok none, st1)
        | (NetResult.fail, st1) =>
          match alistLookup st1.negeriByIdCache id with
          | some e => (NetResult.ok (some e.data), st1)
          | none => (NetResult.fail, st1)

/-! ## In-flight GET bookkeeping (request and response interceptors) -/

/-- Status of one axios GET request in the in-flight bookkeeping model:
in flight; cancelled while pending (will reject as an axios Cancel, which
carries no config); network-errored with the rejection (carrying the
request's config) queued but its interceptor not yet run; settled normally;
resolved benignly after cancellation; or failed after the error interceptor
ran. -/
inductive ReqStatus where
  | inflight
  | cancelled
  | failedPending
  | doneNormal
  | doneBenign
  | failed
  deriving Repr, DecidableEq

structure Req where
  rid : Nat
  url : String
  status : ReqStatus
  deriving Repr, DecidableEq

/-- The gateway's request bookkeeping: the activeRequests map (url to the
cancel token, identified by the request id), the requests issued so far,
and the next fresh id. -/
structure GwRequests where
  active : List (String × Nat) := []
  reqs : List Req := []
  nextId : Nat := 0
  deriving Repr, DecidableEq

def setReqStatus (l : List Req) (i : Nat) (s : ReqStatus) : List Req :=
  l.map (fun r => if r.rid == i then { r with status := s } else r)

/-- Cancelling a token: a request still pending will reject as a Cancel;
a request whose network outcome is already settled is unaffected by the
cancel call (its queued rejection keeps its original reason). -/
def cancelReq (l : List Req) (i : Nat) : List Req :=
  l.map (fun r =>
    if r.rid == i && r.status == ReqStatus.inflight then
      { r with status := ReqStatus.cancelled }
    else r)

def findReq (st : GwRequests) (i : Nat) : Option Req :=
  st.reqs.find? (fun r => r.rid == i)

/-- ApiClient.cancelActiveRequest: call cancel on the token recorded for
the url, if any, and deregister it. -/
def cancelActiveRequest (st : GwRequests) (url : String) : GwRequests :=
  match alistLookup st.active url with
  | some i =>
    { st with reqs := cancelReq st.reqs i,
              active := alistRemove st.active url }
  | none => st

/-- The request interceptor on a GET: cancel any request registered to the
same url, then register the new request under that url. -/
def issueGet (st : GwRequests) (url : String) : GwRequests :=
  let st1 := cancelActiveRequest st url
  { active := alistInsert st1.active url st1.nextId,
    reqs := st1.reqs ++ [⟨st1.nextId, url, ReqStatus.inflight⟩],
    nextId := st1.nextId + 1 }

/-- The response interceptor on a successful response: only a request that
was not cancelled settles normally; its url's activeRequests entry is
deleted. -/
def respondSuccess (st : GwRequests) (i : Nat) : GwRequests :=
  match findReq st i with
  | some r =>
    if r.status == ReqStatus.inflight then
      { st with active := alistRemove st.active r.url,
                reqs := setReqStatus st.reqs i ReqStatus.doneNormal }
    else st
  | none => st

/-- A genuine network error for an in-flight request: the rejection, which
carries the request's config, is queued, but the error interceptor has not
run yet (it runs later as its own task, so other work can interleave). -/
def netFail (st : GwRequests) (i : Nat) : GwRequests :=
  match findReq st i with
  | some r =>
    if r.status == ReqStatus.inflight then
      { st with reqs := setReqStatus st.reqs i ReqStatus.failedPending }
    else st
  | none => st

/-- The error interceptor processing a queued network failure: since
error.config.url is present, the url's activeRequests entry (whichever
request that entry now belongs to) is deleted, and the error propagates. -/
def processFailure (st : GwRequests) (i : Nat) : GwRequests :=
  match findReq st i with
  | some r =>
    if r.status == ReqStatus.failedPending then
      { st with active := alistRemove st.active r.url,
                reqs := setReqStatus st.reqs i ReqStatus.failed }
    else st
  | none => st

/-- The error interceptor handling a cancellation rejection: an axios
Cancel carries no config, so the config-guarded delete is skipped and the
isCancel check resolves the request benignly. -/
def respondCancelled (st : GwRequests) (i : Nat) : GwRequests :=
  match findReq st i with
  | some r =>
    if r.status == ReqStatus.cancelled then
      { st with reqs := setReqStatus st.reqs i ReqStatus.doneBenign }
    else st
  | none => st

/-- How many requests to the url are currently in flight. -/
def inflightCount (st : GwRequests) (url : String) : Nat :=
  (st.reqs.filter (fun r => r.url == url && r.status == ReqStatus.inflight)).length

/-! ## Sample entries for concrete evaluations -/

def sampleEntryA : Kamus := { id := "1", word := "abc", meaning := "qq", negeriId := "0" }

def sampleEntryB : Kamus := { id := "1", word := "abc def", meaning := "zz", negeriId := "0" }

def sampleEntryC : Kamus := { id := "1", word := "ab", meaning := "xyz", negeriId := "0" }

/-! ## Helper lemmas -/

theorem strListContains_iff {i : String} {l : List String} : l.contains i = true ↔ i ∈ l := by
  simp [List.contains, List.elem_iff]

theorem boolOfIff (a b : Bool) (h : a = true ↔ b = true) : a = b := by
  cases a <;> cases b <;> simp_all

theorem toDigitsCore_length_le (b fuel : Nat) :
    ∀ (n : Nat) (ds : List Char), ds.length ≤ (Nat.toDigitsCore b fuel n ds).length := by
  induction fuel with
  | zero => intro n ds; simp [Nat.toDigitsCore]
  | succ fuel ih =>
    intro n ds
    simp only [Nat.toDigitsCore]
    split
    · simp
    · exact le_trans (by simp) (ih (n / b) ((n % b).digitChar :: ds))

theorem toDigits_ne_nil (b n : Nat) : Nat.toDigits b n ≠ [] := by
  unfold Nat.toDigits
  simp only [Nat.toDigitsCore]
  split
  · simp
  · intro h
    have hl := toDigitsCore_length_le b n (n / b) [(n % b).digitChar]
    rw [h] at hl
    simp at hl

theorem natRepr_ne_empty (n : Nat) : Nat.repr n ≠ "" := by
  intro h
  exact toDigits_ne_nil 10 n (congrArg String.data h)

theorem strAppend_ne_empty (s t : String) (h : s.length ≠ 0) : s ++ t ≠ "" := by
  intro hc
  have h2 : (s ++ t).length = 0 := by rw [hc]; rfl
  rw [String.length_append] at h2
  omega

theorem alistLookup_insert_self {A : Type} (l : List (String × A)) (k : String) (v : A) :
    alistLookup (alistInsert l k v) k = some v := by
  simp [alistLookup, alistInsert, List.find?]

theorem alistLookup_remove_self {A : Type} (l : List (String × A)) (k : String) :
    alistLookup (alistRemove l k) k = none := by
  have h : List.find? (fun p => p.1 == k) (List.filter (fun p => !(p.1 == k)) l) = none := by
    rw [List.find?_eq_none]
    intro p hp
    rw [List.mem_filter] at hp
    simp_all
  simp [alistLookup, alistRemove, h]

theorem jvalIdString_ne_empty (v : JVal) (fallback : String) (hf : fallback ≠ "") :
    (if v.truthy then v.toStr else fallback) ≠ "" := by
  cases v with
  | jstr s =>
    by_cases hs : s = ""
    · subst hs; simpa [JVal.truthy] using hf
    · simp [JVal.truthy, JVal.toStr, hs]
  | jnum n =>
    by_cases hn : n = 0
    · subst hn; simpa [JVal.truthy] using hf
    · simpa [JVal.truthy, JVal.toStr, hn] using natRepr_ne_empty n
  | jnull => simpa [JVal.truthy] using hf

theorem getAllNegeri_fail_state (st : NegeriRepoState) (now : Int)
    (f : NetResult (List Negeri)) :
    (getAllNegeri st now f).1 = NetResult.fail → (getAllNegeri st now f).2 = st := by
  unfold getAllNegeri
  cases hc : st.negeriCache <;> cases f <;> simp_all
  split <;> simp_all

/-! ## Claim theorems -/

/-- C1, evaluated at the failing input: a successful POST to the path
/kamus computes the resource path as the first component of the JS split,
which is the empty string for a path with a leading slash; every cache key
contains the empty string, so the cached GET entry under the unrelated key
/negeri is deleted and the cache is left empty. -/
theorem c1_mutation_invalidation_overreach :
    (apiPost "/kamus" ([("/negeri", ⟨(0 : Nat), 0, 1000⟩)] : GwCache Nat)
        (NetResult.ok (1 : Nat))).2 = []
    ∧ jsSplitHead "/kamus" '/' = "" := by
  decide

/-- C2: for a Gateway GET whose network call is actually issued (the cache
pre-check produced no validity hit) and fails, the data of whatever cache
entry exists for the key at that moment is returned instead of the failure,
and the failure propagates exactly when no entry exists for the key. -/
theorem c2_get_stale_cache_fallback {A : Type} (cache : GwCache A) (now : Int) (url : String)
    (params : Option String) (skipCache : Bool) (expirationMs : Option Int)
    (h : (preCheck cache now (cacheKeyOf url params) skipCache).1 = none) :
    (∀ e : GwCacheEntry A,
      alistLookup (preCheck cache now (cacheKeyOf url params) skipCache).2
          (cacheKeyOf url params) = some e →
      (apiGet cache now url params skipCache expirationMs NetResult.fail).1
        = NetResult.ok e.data)
    ∧ (alistLookup (preCheck cache now (cacheKeyOf url params) skipCache).2
          (cacheKeyOf url params) = none →
      (apiGet cache now url params skipCache expirationMs NetResult.fail).1
        = NetResult.fail) := by
  constructor
  · intro e he
    simp only [apiGet, h, he]
  · intro hn
    simp only [apiGet, h, hn]

/-- C2 witness: with skipCache set (so no pre-check hit) and a stale entry
under the key, a failing GET returns the stale data. -/
theorem c2_get_stale_cache_fallback_witness :
    (apiGet ([("/kamus", ⟨(7 : Nat), 0, 10⟩)] : GwCache Nat) 99 "/kamus" none true none
        NetResult.fail).1 = NetResult.ok 7 :=
  (c2_get_stale_cache_fallback [("/kamus", ⟨7, 0, 10⟩)] 99 "/kamus" none true none rfl).1
    ⟨7, 0, 10⟩ rfl

/-- C10: a successful GET with skipCache set returns the fresh body and
leaves the gateway response cache entirely unchanged: no value is consulted
as a hit beforehand and nothing is written afterwards. -/
theorem c10_skipCache_leaves_cache_unchanged {A : Type} (cache : GwCache A) (now : Int)
    (url : String) (params : Option String) (expirationMs : Option Int) (d : A) :
    apiGet cache now url params true expirationMs (NetResult.ok d) = (NetResult.ok d, cache) :=
  rfl

/-- C5: the mapping step of getAllKamus maps a raw list of length N to
exactly N entries (a throwing item becomes the tagged placeholder instead of
aborting the batch), and every mapped entry has a non-empty id and a
non-empty negeriId. -/
theorem c5_mapping_preserves_length_and_ids (now : Int) (rnd : Nat → String)
    (items : List RawKamusItem) :
    (mapKamusItems now rnd items).length = items.length
    ∧ ∀ k ∈ mapKamusItems now rnd items, k.id ≠ "" ∧ k.negeriId ≠ "" := by
  constructor
  · simp [mapKamusItems]
  · intro k hk
    simp only [mapKamusItems, List.mem_map] at hk
    obtain ⟨⟨i, it⟩, _, rfl⟩ := hk
    cases it with
    | throwing =>
      constructor
      · show ("error-" ++ rnd i) ≠ ""
        exact strAppend_ne_empty "error-" (rnd i) (by decide)
      · show ("0" : String) ≠ ""
        decide
    | record r =>
      constructor
      · show (if r.id.truthy then r.id.toStr else "unknown-" ++ now.repr) ≠ ""
        exact jvalIdString_ne_empty r.id ("unknown-" ++ now.repr)
          (strAppend_ne_empty "unknown-" now.repr (by decide))
      · show (if r.negeri_id.truthy then r.negeri_id.toStr else "0") ≠ ""
        exact jvalIdString_ne_empty r.negeri_id "0" (by decide)

/-- C5 witness: a concrete 3-item list with one throwing item maps to
exactly 3 entries, all with non-empty id and negeriId. -/
theorem c5_mapping_preserves_length_and_ids_witness :
    (mapKamusItems 0 (fun _ => "x7q")
        [RawKamusItem.record ⟨JVal.jstr "9", some "w", some "m", none, JVal.jnum 3, none⟩,
         RawKamusItem.throwing,
         RawKamusItem.record ⟨JVal.jnull, none, none, none, JVal.jnull, none⟩]).length = 3
    ∧ ({ id := "9", word := "w", meaning := "m", negeriId := "3",
         negeriName := some "Unknown Region" } : Kamus)
        ∈ mapKamusItems 0 (fun _ => "x7q")
            [RawKamusItem.record ⟨JVal.jstr "9", some "w", some "m", none, JVal.jnum 3, none⟩,
             RawKamusItem.throwing,
             RawKamusItem.record ⟨JVal.jnull, none, none, none, JVal.jnull, none⟩]
    ∧ ({ id := "9", word := "w", meaning := "m", negeriId := "3",
         negeriName := some "Unknown Region" } : Kamus).id ≠ ""
    ∧ ({ id := "9", word := "w", meaning := "m", negeriId := "3",
         negeriName := some "Unknown Region" } : Kamus).negeriId ≠ "" := by
  refine ⟨?_, ?_, ?_⟩
  · exact (c5_mapping_preserves_length_and_ids 0 (fun _ => "x7q") _).1
  · decide
  · exact (c5_mapping_preserves_length_and_ids 0 (fun _ => "x7q")
      [RawKamusItem.record ⟨JVal.jstr "9", some "w", some "m", none, JVal.jnum 3, none⟩,
       RawKamusItem.throwing,
       RawKamusItem.record ⟨JVal.jnull, none, none, none, JVal.jnull, none⟩]).2 _ (by decide)

/-- C6: when the /kamus fetch fails, getAllKamus returns the previously
cached full list if one exists (even expired), fails exactly when no prior
cache exists, and a failing outcome can only arise from a failing fetch with
an empty cache. -/
theorem c6_getAllKamus_stale_fallback (st : KamusRepoState) (now : Int) (rnd : Nat → String) :
    (∀ c, st.kamusCache = some c →
      (getAllKamus st now rnd NetResult.fail).1 = NetResult.ok c.data)
    ∧ (st.kamusCache = none →
      (getAllKamus st now rnd NetResult.fail).1 = NetResult.fail)
    ∧ (∀ fetch, (getAllKamus st now rnd fetch).1 = NetResult.fail →
      fetch = NetResult.fail ∧ st.kamusCache = none) := by
  refine ⟨?_, ?_, ?_⟩
  · intro c hc
    simp only [getAllKamus, hc]
    split <;> rfl
  · intro hc
    simp [getAllKamus, hc]
  · intro fetch hf
    cases hc : st.kamusCache with
    | some c =>
      exfalso
      simp only [getAllKamus, hc] at hf
      cases fetch <;> [skip; skip] <;> split at hf <;> simp_all
    | none =>
      simp only [getAllKamus, hc] at hf
      cases fetch <;> simp_all

/-- C6 witness: with a populated (expired) cache and a failing fetch the
cached list is returned; with an empty cache and a failing fetch the
failure propagates. -/
theorem c6_getAllKamus_stale_fallback_witness :
    (getAllKamus { kamusCache := some ⟨[], 0⟩ } (20 * 60 * 1000) (fun _ => "r")
        NetResult.fail).1 = NetResult.ok []
    ∧ (getAllKamus {} 0 (fun _ => "r") NetResult.fail).1 = NetResult.fail := by
  constructor
  · exact (c6_getAllKamus_stale_fallback { kamusCache := some ⟨[], 0⟩ } (20 * 60 * 1000)
      (fun _ => "r")).1 ⟨[], 0⟩ rfl
  · exact (c6_getAllKamus_stale_fallback {} 0 (fun _ => "r")).2.1 rfl

/-- C4 amended: in both repositories isValid(entry) holds exactly when
(now - timestamp) < expirationWindow; in the Gateway an entry written by
setCacheData with window w is a validity hit exactly when (now - timestamp)
< w, and an expired entry is evicted by the Gateway's validity check on
access. (The repositories, by contrast, retain expired entries for the
stale fallback; see the counterexample.) -/
theorem c4_cache_validity (A : Type) :
    (∀ (e : RepoCacheEntry A) (now : Int),
      kamusIsCacheValid (some e) now = decide (now - e.timestamp < kamusCacheExpirationTime)
      ∧ negeriIsCacheValid (some e) now
          = decide (now - e.timestamp < negeriCacheExpirationTime))
    ∧ (∀ (cache : GwCache A) (t now : Int) (key : String) (d : A) (w : Int),
      (getValidCacheData (setCacheData cache t key d (some w)) now key).1.isSome
        = decide (now - t < w))
    ∧ (∀ (cache : GwCache A) (now : Int) (key : String) (e : GwCacheEntry A),
      alistLookup cache key = some e → e.expiresAt ≤ now →
      alistLookup (getValidCacheData cache now key).2 key = none) := by
  refine ⟨fun e now => ⟨rfl, rfl⟩, ?_, ?_⟩
  · intro cache t now key d w
    simp only [setCacheData, getValidCacheData, alistLookup_insert_self, Option.getD]
    by_cases h : now < t + w
    · rw [if_pos h]
      have hw : now - t < w := by omega
      simp [hw]
    · rw [if_neg h]
      have hw : ¬ (now - t < w) := by omega
      simp [hw]
  · intro cache now key e he hexp
    simp only [getValidCacheData, he]
    rw [if_neg (by omega)]
    exact alistLookup_remove_self cache key

/-- C4 witness: a gateway entry with expiry 5 accessed at time 7 is removed
from the cache by the validity check. -/
theorem c4_cache_validity_witness :
    alistLookup (getValidCacheData ([("k", ⟨(0 : Nat), 0, 5⟩)] : GwCache Nat) 7 "k").2 "k"
      = none :=
  (c4_cache_validity Nat).2.2 [("k", ⟨0, 0, 5⟩)] 7 "k" ⟨0, 0, 5⟩ rfl (by decide)

/-- C4 as stated fails: an expired Entry-Repository cache entry is accessed
(the validity check reads it and the stale fallback returns its data) yet
it stays in the cache store instead of being evicted on that access. -/
theorem c4_counterexample_repo_keeps_expired :
    (getAllKamus { kamusCache := some ⟨[], 0⟩ } (10 * 60 * 1000) (fun _ => "r") NetResult.fail)
      = (NetResult.ok [], { kamusCache := some ⟨[], 0⟩ })
    ∧ kamusIsCacheValid (some (⟨[], 0⟩ : RepoCacheEntry (List Kamus))) (10 * 60 * 1000)
        = false :=
  ⟨rfl, rfl⟩

/-- C9: for a keyword whose trimmed length is 1 or 2, searchKamus performs
the direct case-insensitive substring scan of word and meaning over all
loaded entries, whatever the search index holds. -/
theorem c9_short_query_substring_scan (entries : List Kamus) (idx : SearchIndex)
    (keyword : String) (h1 : jsTrim keyword ≠ "") (h2 : (jsTrim keyword).length ≤ 2) :
    searchKamus entries idx keyword
      = entries.filter (fun k =>
          jsIncludes (jsToLower k.word) (jsToLower (jsTrim keyword))
            || jsIncludes (jsToLower k.meaning) (jsToLower (jsTrim keyword))) := by
  have h0 : (jsTrim keyword == "") = false := by simpa using h1
  simp only [searchKamus, h0, Bool.false_eq_true, if_false, if_pos h2]
  rfl

/-- C9 witness: a one-character query returns the substring matches over the
entries, with an unrelated index in place. -/
theorem c9_short_query_substring_scan_witness :
    searchKamus [sampleEntryC] [("zz", ["9"])] "a"
      = List.filter (fun k =>
          jsIncludes (jsToLower k.word) (jsToLower (jsTrim "a"))
            || jsIncludes (jsToLower k.meaning) (jsToLower (jsTrim "a")))
          [sampleEntryC] :=
  c9_short_query_substring_scan [sampleEntryC] [("zz", ["9"])] "a" (by decide) (by decide)

/-- C8 fails on the code: GET r0 to /kamus errors on the network (its
rejection, which carries r0's config, is queued but not yet processed); a
new GET r1 to /kamus is issued, deregistering r0's token (the cancel call
cannot change how the already-failed r0 settles); r0's error interceptor
then runs and, as error.config.url is present, deletes the /kamus
activeRequests entry — which is now r1's token; a further GET r2 to /kamus
therefore cancels nothing. Requests r1 and r2 are then both in flight to
/kamus, and the earlier r1 can still settle normally although the newer r2
was issued after it. -/
theorem c8_supersession_gap_trace :
    inflightCount
        (issueGet (processFailure (issueGet (netFail (issueGet {} "/kamus") 0) "/kamus") 0)
          "/kamus") "/kamus" = 2
    ∧ ∃ r ∈ (respondSuccess
          (issueGet (processFailure (issueGet (netFail (issueGet {} "/kamus") 0) "/kamus") 0)
            "/kamus") 1).reqs,
        r.rid = 1 ∧ r.status = ReqStatus.doneNormal := by
  decide

/-- C3 as stated fails: for keyword "abc xyz" over one entry whose index
carries the token abc but not xyz, the token xyz matches nothing in the
index and is skipped, yet the entry is returned; the spec-side test that
every token match the entry is false. -/
theorem c3_counterexample_missing_token_skipped :
    searchKamus [sampleEntryA] (buildSearchIndex [sampleEntryA]) "abc xyz" = [sampleEntryA]
    ∧ indexLookup (buildSearchIndex [sampleEntryA]) "xyz" = none
    ∧ allTokensMatch (buildSearchIndex [sampleEntryA]) (tokenizeText (jsTrim "abc xyz"))
        sampleEntryA.id = false := by
  decide

theorem interFold_cons (idx : SearchIndex) (t : String) (ts : List String)
    (acc : Option (List String)) :
    interFold idx (t :: ts) acc
      = interFold idx ts
          (match indexLookup idx t with
           | some s =>
             match acc with
             | none => some s
             | some m => some (m.filter (fun i => s.contains i))
           | none => acc) := rfl

theorem interFold_some_char (idx : SearchIndex) (toks : List String) :
    ∀ acc : List String, (∀ t ∈ toks, indexLookup idx t ≠ none) →
      ∃ m, interFold idx toks (some acc) = some m
        ∧ ∀ i : String, i ∈ m ↔ (i ∈ acc ∧ allTokensMatch idx toks i = true) := by
  induction toks with
  | nil =>
    intro acc _
    exact ⟨acc, rfl, by simp [allTokensMatch]⟩
  | cons t ts ih =>
    intro acc h
    obtain ⟨s, hs⟩ : ∃ s, indexLookup idx t = some s := by
      cases hkt : indexLookup idx t with
      | none => exact absurd hkt (h t (by simp))
      | some s => exact ⟨s, rfl⟩
    obtain ⟨m, hm, hchar⟩ := ih (acc.filter (fun i => s.contains i))
      (fun u hu => h u (List.mem_cons_of_mem t hu))
    refine ⟨m, ?_, ?_⟩
    · rw [interFold_cons, hs]
      exact hm
    · intro i
      rw [hchar i, List.mem_filter]
      simp only [allTokensMatch, List.all_cons, tokenHas, hs, Bool.and_eq_true]
      tauto

/-- C3 amended: for a keyword of trimmed length over 2 all of whose tokens
occur in the index built from the loaded entries, and for which some loaded
entry is matched by every token, searchKamus returns exactly the entries
matched by every token of the keyword in the index (AND semantics, the
intersection of the id-sets); the code skips tokens absent from the index
and falls back to a substring scan on an empty intersection, which is what
the two extra preconditions exclude. -/
theorem c3_long_query_index_intersection (entries : List Kamus) (keyword : String)
    (h1 : 2 < (jsTrim keyword).length)
    (h2 : tokenizeText (jsTrim keyword) ≠ [])
    (h3 : ∀ t ∈ tokenizeText (jsTrim keyword),
      indexLookup (buildSearchIndex entries) t ≠ none)
    (h4 : ∃ k ∈ entries,
      allTokensMatch (buildSearchIndex entries) (tokenizeText (jsTrim keyword)) k.id = true) :
    searchKamus entries (buildSearchIndex entries) keyword
      = entries.filter (fun k =>
          allTokensMatch (buildSearchIndex entries) (tokenizeText (jsTrim keyword)) k.id) := by
  have h0 : (jsTrim keyword == "") = false := by
    rw [beq_eq_false_iff_ne]
    intro hc
    rw [hc] at h1
    exact absurd h1 (by decide)
  have hlen : ¬ (jsTrim keyword).length ≤ 2 := by omega
  obtain ⟨t, ts, htts⟩ : ∃ t ts, tokenizeText (jsTrim keyword) = t :: ts := by
    cases hc : tokenizeText (jsTrim keyword) with
    | nil => exact absurd hc h2
    | cons t ts => exact ⟨t, ts, rfl⟩
  obtain ⟨s, hs⟩ : ∃ s, indexLookup (buildSearchIndex entries) t = some s := by
    cases hkt : indexLookup (buildSearchIndex entries) t with
    | none => exact absurd hkt (h3 t (by rw [htts]; simp))
    | some s => exact ⟨s, rfl⟩
  obtain ⟨m, hm, hchar⟩ := interFold_some_char (buildSearchIndex entries) ts s
    (fun u hu => h3 u (by rw [htts]; exact List.mem_cons_of_mem t hu))
  have hfull : ∀ i : String,
      i ∈ m ↔ allTokensMatch (buildSearchIndex entries) (tokenizeText (jsTrim keyword)) i
        = true := by
    intro i
    rw [hchar i, htts]
    simp only [allTokensMatch, List.all_cons, tokenHas, hs, Bool.and_eq_true]
    constructor
    · rintro ⟨hi, hrest⟩
      exact ⟨strListContains_iff.mpr hi, hrest⟩
    · rintro ⟨hi, hrest⟩
      exact ⟨strListContains_iff.mp hi, hrest⟩
  have hmne : m ≠ [] := by
    obtain ⟨k, _, hkall⟩ := h4
    intro hnil
    have := (hfull k.id).mpr hkall
    rw [hnil] at this
    simp at this
  have hme : m.isEmpty = false := by
    cases m with
    | nil => exact absurd rfl hmne
    | cons a as => rfl
  have hfold : interFold (buildSearchIndex entries) (tokenizeText (jsTrim keyword)) none
      = some m := by
    rw [htts, interFold_cons, hs]
    exact hm
  have htokne : (tokenizeText (jsTrim keyword)).isEmpty = false := by
    rw [htts]; rfl
  simp only [searchKamus, h0, Bool.false_eq_true, if_false, if_neg hlen, htokne, ite_self,
    hfold, hme]
  refine List.filter_congr ?_
  intro k _
  exact boolOfIff _ _ (strListContains_iff.trans (hfull k.id))

/-- C3 amended witness: a two-token keyword whose tokens both occur in the
index of the single loaded entry returns exactly the filter by the
all-tokens test. -/
theorem c3_long_query_index_intersection_witness :
    searchKamus [sampleEntryB] (buildSearchIndex [sampleEntryB]) "abc def"
      = List.filter (fun k =>
          allTokensMatch (buildSearchIndex [sampleEntryB]) (tokenizeText (jsTrim "abc def"))
            k.id)
          [sampleEntryB] :=
  c3_long_query_index_intersection [sampleEntryB] "abc def" (by decide) (by decide)
    (by decide) ⟨sampleEntryB, by decide, by decide⟩

/-- C7: getNegeriById consults exactly the chain the claim describes:
(1) valid per-id cache entry; (2) valid full-list cache scan with per-id
backfill; (3) direct point fetch with backfill; (4) on point-fetch failure
getAll followed by a scan, returning null when absent; on total failure a
stale per-id entry is returned before the error propagates. -/
theorem c7_getNegeriById_lookup_chain (st : NegeriRepoState) (now : Int) (id : String)
    (pres : NetResult Negeri) (lres : NetResult (List Negeri)) :
    getNegeriById st now id pres lres = specLookupChain st now id pres lres := by
  simp only [getNegeriById, specLookupChain, specValidPerId, specValidFullListHit,
    specBackfill, negeriIsCacheValid, isCacheValid, decide_eq_true_eq]
  cases hid : alistLookup st.negeriByIdCache id with
  | some e =>
    by_cases hv : now - e.timestamp < negeriCacheExpirationTime
    · simp only [if_pos hv]
    · simp only [if_neg hv]
      cases hc : st.negeriCache with
      | some c =>
        by_cases hvc : now - c.timestamp < negeriCacheExpirationTime
        · simp only [if_pos hvc]
        · simp only [if_neg hvc]
      | none => exact rfl
  | none =>
    cases hc : st.negeriCache with
    | some c =>
      by_cases hvc : now - c.timestamp < negeriCacheExpirationTime
      · simp only [if_pos hvc]
      · simp only [if_neg hvc]
    | none => exact rfl

end KamusNegeri
